import Mathlib

/-
Verification of the domain resolution probe from the domains repository.

The probe logic is shallowly embedded from the Python sources:
  - check_cc_domains.py   : get_domain_response (https-first candidate order),
                            make_request, DomainResponse.update_from,
                            Counters.increment, process_data
  - check_domains.py      : get_domain_response (http-first candidate order),
                            embedded here as cd_get_domain_response
  - check_cc_hostnames.py : get_host_response (skips the www candidates when
                            the input already starts with the www label)

The HTTP client is modelled as a function from (request url, request kind)
to a result, which is either a response carrying a status code, reason and
final URL, or an exception identified by the exception class name. Since
each run queries every (url, kind) pair at most once, a function client
captures every possible sequence of attempt results.
-/

/-- Result of one HTTP request as seen by the probe. -/
inductive ReqResult where
  | success (status : Nat) (reason : String) (url : String)
  | failure (exceptionName : String)
  deriving Repr, DecidableEq

/-- The abstract HTTP client: maps a request URL and a request kind
("head" or "get") to the result of issuing that request. -/
abbrev Client := String → String → ReqResult

/-- Mirror of the DomainResponse dataclass of check_cc_domains.py. -/
structure DomainResponse where
  domain : String
  request_url : String
  request_type : String
  exception_name : Option String
  status_code : Option Nat
  status_reason : Option String
  response_url : Option String
  deriving Repr, DecidableEq

/-- Field-by-field copy, mirroring DomainResponse.update_from. -/
def DomainResponse.update_from (self other : DomainResponse) : DomainResponse :=
  { self with
    domain := other.domain
    request_url := other.request_url
    request_type := other.request_type
    exception_name := other.exception_name
    status_code := other.status_code
    status_reason := other.status_reason
    response_url := other.response_url }

/-- The status code carried by a raw client result, if any. -/
def result_status : ReqResult → Option Nat
  | .success s _ _ => some s
  | .failure _ => none

/-- Mirror of make_request: build the URL, issue the request, absorb any
exception into the exception_name field. -/
def make_request (client : Client) (scheme subdomain domain request_type : String) :
    DomainResponse :=
  let request_url := scheme ++ subdomain ++ domain
  match client request_url request_type with
  | .success s r u =>
      { domain := domain, request_url := request_url, request_type := request_type
        exception_name := none, status_code := some s
        status_reason := some r, response_url := some u }
  | .failure e =>
      { domain := domain, request_url := request_url, request_type := request_type
        exception_name := some e, status_code := none
        status_reason := none, response_url := none }

/-- One candidate attempt: a head request, escalated to a get request when
the head result carries status 405 (lines 136-142 and the analogous blocks
of check_cc_domains.py). Returns the recorded attempt and the list of
(url, kind) requests actually issued. -/
def tryCandidate (client : Client) (scheme subdomain domain : String) :
    DomainResponse × List (String × String) :=
  let head_res := make_request client scheme subdomain domain "head"
  if head_res.status_code = some 405 then
    (make_request client scheme subdomain domain "get",
     [(scheme ++ subdomain ++ domain, "head"), (scheme ++ subdomain ++ domain, "get")])
  else
    (head_res, [(scheme ++ subdomain ++ domain, "head")])

/-- The two sequential conditional updates applied to the running response
after a non-first candidate attempt (e.g. lines 155-162 of
check_cc_domains.py). -/
def mergeStep (running new : DomainResponse) : DomainResponse :=
  let r1 := if new.status_code = some 200 then running.update_from new else running
  if r1.status_code = none ∧ new.status_code ≠ none then r1.update_from new else r1

/-- One non-first candidate block of get_domain_response: guarded by the
running response being an exception or a non-200 status, it issues the
candidate attempt and merges it into the running response, extending the
request trace. -/
def probeStep (client : Client) (domain : String)
    (acc : DomainResponse × List (String × String)) (cand : String × String) :
    DomainResponse × List (String × String) :=
  if acc.1.exception_name ≠ none ∨ acc.1.status_code ≠ some 200 then
    let tc := tryCandidate client cand.1 cand.2 domain
    (mergeStep acc.1 tc.1, acc.2 ++ tc.2)
  else acc

/-- Candidates after the first in check_cc_domains.py order. -/
def cc_rest : List (String × String) :=
  [("https://", "www."), ("http://", ""), ("http://", "www.")]

/-- Full candidate order of check_cc_domains.py: https bare, https www,
http bare, http www. -/
def cc_candidates : List (String × String) := ("https://", "") :: cc_rest

/-- Mirror of get_domain_response of check_cc_domains.py: seed the running
response with the first candidate attempt, then process the remaining
candidates in order. Also returns the trace of issued requests. -/
def get_domain_response (client : Client) (domain : String) :
    DomainResponse × List (String × String) :=
  cc_rest.foldl (probeStep client domain) (tryCandidate client "https://" "" domain)

/-- Candidates after the first in check_domains.py order. -/
def cd_rest : List (String × String) :=
  [("http://", "www."), ("https://", ""), ("https://", "www.")]

/-- Full candidate order of check_domains.py: http bare, http www,
https bare, https www. -/
def cd_candidates : List (String × String) := ("http://", "") :: cd_rest

/-- Mirror of get_domain_response of check_domains.py (http-first order). -/
def cd_get_domain_response (client : Client) (domain : String) :
    DomainResponse × List (String × String) :=
  cd_rest.foldl (probeStep client domain) (tryCandidate client "http://" "" domain)

/-- Model of the Python str.startswith method. -/
def startswith (s p : String) : Bool := p.data.isPrefixOf s.data

/-- One non-first candidate block of get_host_response of
check_cc_hostnames.py: identical to probeStep except that a www candidate
is skipped entirely when the hostname already starts with the www label
(lines 148-165 and 187-206 of check_cc_hostnames.py). -/
def hostProbeStep (client : Client) (hostname : String)
    (acc : DomainResponse × List (String × String)) (cand : String × String) :
    DomainResponse × List (String × String) :=
  if acc.1.exception_name ≠ none ∨ acc.1.status_code ≠ some 200 then
    if cand.2 = "www." ∧ startswith hostname "www." then acc
    else
      let tc := tryCandidate client cand.1 cand.2 hostname
      (mergeStep acc.1 tc.1, acc.2 ++ tc.2)
  else acc

/-- Candidates after the first in check_cc_hostnames.py order. -/
def hn_rest : List (String × String) :=
  [("https://", "www."), ("http://", ""), ("http://", "www.")]

/-- Mirror of get_host_response of check_cc_hostnames.py. -/
def get_host_response (client : Client) (hostname : String) :
    DomainResponse × List (String × String) :=
  hn_rest.foldl (hostProbeStep client hostname) (tryCandidate client "https://" "" hostname)

/-- Mirror of the Counters dataclass of check_cc_domains.py. -/
structure Counters where
  total_domains : Nat := 0
  total_200_status : Nat := 0
  total_other_status : Nat := 0
  total_exceptions : Nat := 0
  deriving Repr, DecidableEq

/-- Mirror of Counters.increment. -/
def Counters.increment (c : Counters) (status_code : Option Nat) : Counters :=
  let c1 := { c with total_domains := c.total_domains + 1 }
  if status_code = some 200 then
    { c1 with total_200_status := c1.total_200_status + 1 }
  else if status_code ≠ none then
    { c1 with total_other_status := c1.total_other_status + 1 }
  else
    { c1 with total_exceptions := c1.total_exceptions + 1 }

/-- Mirror of the counting behaviour of process_data: one increment per
input name, keyed by the final status code of the resolved response. -/
def process_data (client : Client) (domains : List String) : Counters :=
  domains.foldl (fun c d => c.increment (get_domain_response client d).1.status_code) {}

/-- Exclusivity invariant for an attempt result: exactly one of the
exception alternative and the response alternative is populated. -/
def wellFormed (r : DomainResponse) : Prop :=
  (r.exception_name ≠ none ∧ r.status_code = none ∧ r.status_reason = none
      ∧ r.response_url = none)
  ∨ (r.exception_name = none ∧ r.status_code ≠ none ∧ r.status_reason ≠ none
      ∧ r.response_url ≠ none)

instance (r : DomainResponse) : Decidable (wellFormed r) := by
  unfold wellFormed; infer_instance

/-- A client on which every request raises a connection error. -/
def allFailClient : Client := fun _ _ => ReqResult.failure "ConnectionError"

lemma update_from_eq (r o : DomainResponse) : r.update_from o = o := rfl

lemma make_request_status (client : Client) (scheme subdomain domain t : String) :
    (make_request client scheme subdomain domain t).status_code
      = result_status (client (scheme ++ subdomain ++ domain) t) := by
  cases h : client (scheme ++ subdomain ++ domain) t <;>
    simp [make_request, result_status, h]

lemma make_request_wf (client : Client) (scheme subdomain domain t : String) :
    wellFormed (make_request client scheme subdomain domain t) := by
  cases h : client (scheme ++ subdomain ++ domain) t <;>
    simp [make_request, wellFormed, h]

lemma tryCandidate_wf (client : Client) (scheme subdomain domain : String) :
    wellFormed (tryCandidate client scheme subdomain domain).1 := by
  by_cases h : (make_request client scheme subdomain domain "head").status_code = some 405 <;>
    simp only [tryCandidate, h, if_true, if_false] <;>
    exact make_request_wf client scheme subdomain domain _

lemma mergeStep_cases (r n : DomainResponse) : mergeStep r n = r ∨ mergeStep r n = n := by
  unfold mergeStep
  simp only [update_from_eq]
  split <;> split <;> simp

lemma mergeStep_wf {r n : DomainResponse} (hr : wellFormed r) (hn : wellFormed n) :
    wellFormed (mergeStep r n) := by
  rcases mergeStep_cases r n with h | h <;> rw [h] <;> assumption

lemma probeStep_skip {client : Client} {domain : String}
    {acc : DomainResponse × List (String × String)} {cand : String × String}
    (h1 : acc.1.exception_name = none) (h2 : acc.1.status_code = some 200) :
    probeStep client domain acc cand = acc := by
  unfold probeStep
  rw [if_neg]
  push_neg
  exact ⟨h1, h2⟩

lemma probeStep_active {client : Client} {domain : String}
    {acc : DomainResponse × List (String × String)} {cand : String × String}
    (h : acc.1.exception_name ≠ none ∨ acc.1.status_code ≠ some 200) :
    probeStep client domain acc cand
      = (mergeStep acc.1 (tryCandidate client cand.1 cand.2 domain).1,
         acc.2 ++ (tryCandidate client cand.1 cand.2 domain).2) := by
  unfold probeStep
  rw [if_pos h]

lemma foldl_probeStep_wf (client : Client) (domain : String)
    (l : List (String × String)) :
    ∀ init : DomainResponse × List (String × String),
      wellFormed init.1 → wellFormed (l.foldl (probeStep client domain) init).1 := by
  induction l with
  | nil => intro init h; exact h
  | cons c cs ih =>
    intro init h
    simp only [List.foldl_cons]
    apply ih
    by_cases hg : init.1.exception_name ≠ none ∨ init.1.status_code ≠ some 200
    · rw [probeStep_active hg]
      exact mergeStep_wf h (tryCandidate_wf client c.1 c.2 domain)
    · push_neg at hg
      rw [probeStep_skip hg.1 hg.2]
      exact h

lemma foldl_probeStep_stop (client : Client) (domain : String)
    (l : List (String × String)) (acc : DomainResponse × List (String × String))
    (h1 : acc.1.exception_name = none) (h2 : acc.1.status_code = some 200) :
    l.foldl (probeStep client domain) acc = acc := by
  induction l with
  | nil => rfl
  | cons c cs ih =>
    simp only [List.foldl_cons]
    rw [probeStep_skip h1 h2]
    exact ih

/-- The running response is always the literal result of one of the issued
requests, and that request appears in the trace. -/
def FromTrace (client : Client) (domain : String)
    (acc : DomainResponse × List (String × String)) : Prop :=
  ∃ scheme subdomain t, acc.1 = make_request client scheme subdomain domain t
    ∧ (scheme ++ subdomain ++ domain, t) ∈ acc.2

lemma tryCandidate_fromTrace (client : Client) (scheme subdomain domain : String) :
    FromTrace client domain (tryCandidate client scheme subdomain domain) := by
  unfold FromTrace
  by_cases h : (make_request client scheme subdomain domain "head").status_code = some 405
  · refine ⟨scheme, subdomain, "get", ?_, ?_⟩ <;> simp [tryCandidate, h]
  · refine ⟨scheme, subdomain, "head", ?_, ?_⟩ <;> simp [tryCandidate, h]

lemma probeStep_fromTrace {client : Client} {domain : String}
    {acc : DomainResponse × List (String × String)} (cand : String × String)
    (h : FromTrace client domain acc) :
    FromTrace client domain (probeStep client domain acc cand) := by
  by_cases hg : acc.1.exception_name ≠ none ∨ acc.1.status_code ≠ some 200
  · rw [probeStep_active hg]
    rcases mergeStep_cases acc.1 (tryCandidate client cand.1 cand.2 domain).1 with hm | hm
    · obtain ⟨s, sub, t, he, hmem⟩ := h
      exact ⟨s, sub, t, by rw [hm]; exact he, List.mem_append_left _ hmem⟩
    · obtain ⟨s, sub, t, he, hmem⟩ := tryCandidate_fromTrace client cand.1 cand.2 domain
      exact ⟨s, sub, t, by rw [hm]; exact he, List.mem_append_right _ hmem⟩
  · push_neg at hg
    rw [probeStep_skip hg.1 hg.2]
    exact h

lemma foldl_probeStep_fromTrace (client : Client) (domain : String)
    (l : List (String × String)) :
    ∀ init : DomainResponse × List (String × String),
      FromTrace client domain init →
      FromTrace client domain (l.foldl (probeStep client domain) init) := by
  induction l with
  | nil => intro init h; exact h
  | cons c cs ih =>
    intro init h
    simp only [List.foldl_cons]
    exact ih _ (probeStep_fromTrace c h)

lemma make_request_url (client : Client) (scheme subdomain domain t : String) :
    (make_request client scheme subdomain domain t).request_url
      = scheme ++ subdomain ++ domain := by
  cases h : client (scheme ++ subdomain ++ domain) t <;> simp [make_request, h]

lemma make_request_rtype (client : Client) (scheme subdomain domain t : String) :
    (make_request client scheme subdomain domain t).request_type = t := by
  cases h : client (scheme ++ subdomain ++ domain) t <;> simp [make_request, h]

lemma mergeStep_keeps {r n : DomainResponse} (h200 : n.status_code ≠ some 200)
    (hr : r.status_code ≠ none) : mergeStep r n = r := by
  simp [mergeStep, update_from_eq, h200, hr]

lemma mergeStep_keeps_of_nostatus {r n : DomainResponse}
    (hn : n.status_code = none) : mergeStep r n = r := by
  simp [mergeStep, update_from_eq, hn]

lemma mergeStep_takes {r n : DomainResponse} (hr : r.status_code = none)
    (hn : n.status_code ≠ none) : mergeStep r n = n := by
  by_cases h200 : n.status_code = some 200
  · simp [mergeStep, update_from_eq, h200]
  · simp [mergeStep, update_from_eq, h200, hr, hn]

lemma probeStep_replaces_failure {client : Client} {domain : String}
    {acc : DomainResponse × List (String × String)} {cand : String × String}
    (hacc : acc.1.status_code = none)
    (hcand : (tryCandidate client cand.1 cand.2 domain).1.status_code ≠ none) :
    (probeStep client domain acc cand).1
      = (tryCandidate client cand.1 cand.2 domain).1 := by
  have hg : acc.1.exception_name ≠ none ∨ acc.1.status_code ≠ some 200 :=
    Or.inr (by simp [hacc])
  rw [probeStep_active hg]
  exact mergeStep_takes hacc hcand

/-- Claim C3: escalation law. Whenever the head attempt of a candidate carries
status 405, the attempt result recorded for the candidate is the result of
the get attempt, never of the head, and the candidate issues exactly the head request
followed by the get request to the same URL — no further request, even when
the get attempt itself returns 405. -/
theorem escalation_law (client : Client) (scheme subdomain domain : String)
    (h405 : (make_request client scheme subdomain domain "head").status_code = some 405) :
    (tryCandidate client scheme subdomain domain).1
      = make_request client scheme subdomain domain "get"
    ∧ (tryCandidate client scheme subdomain domain).2
      = [(scheme ++ subdomain ++ domain, "head"), (scheme ++ subdomain ++ domain, "get")] := by
  constructor <;> simp [tryCandidate, h405]

/-- Claim C9: attempt result exclusivity. Every attempt result built by
make_request populates exactly one of the exception alternative and the
response alternative; update_from and the merge step preserve this
exclusivity, and the final outcome of the probe satisfies it. -/
theorem attempt_exclusivity (client : Client) (scheme subdomain domain t : String)
    (r o n : DomainResponse)
    (ho : wellFormed o) (hr : wellFormed r) (hn : wellFormed n) :
    wellFormed (make_request client scheme subdomain domain t)
    ∧ wellFormed (DomainResponse.update_from r o)
    ∧ wellFormed (mergeStep r n)
    ∧ wellFormed (get_domain_response client domain).1 := by
  refine ⟨make_request_wf client scheme subdomain domain t, ?_, mergeStep_wf hr hn, ?_⟩
  · rw [update_from_eq]; exact ho
  · exact foldl_probeStep_wf client domain cc_rest _
      (tryCandidate_wf client "https://" "" domain)

/-- Claim C8: the probe never raises. An exception from the client is absorbed
into an attempt result carrying the exception kind and no status code, and
when the running outcome is a failure the requests of the next candidate are
still issued (resolution continues). -/
theorem probe_never_raises (client : Client) (scheme subdomain domain t e : String)
    (cand : String × String) (acc : DomainResponse × List (String × String))
    (hfail : client (scheme ++ subdomain ++ domain) t = ReqResult.failure e)
    (hacc : acc.1.exception_name ≠ none) :
    make_request client scheme subdomain domain t
      = { domain := domain, request_url := scheme ++ subdomain ++ domain
          request_type := t, exception_name := some e
          status_code := none, status_reason := none, response_url := none }
    ∧ (probeStep client domain acc cand).2
      = acc.2 ++ (tryCandidate client cand.1 cand.2 domain).2
    ∧ (tryCandidate client cand.1 cand.2 domain).2 ≠ [] := by
  refine ⟨by simp [make_request, hfail], ?_, ?_⟩
  · rw [probeStep_active (Or.inl hacc)]
  · by_cases h405 : (make_request client cand.1 cand.2 domain "head").status_code = some 405 <;>
      simp [tryCandidate, h405]

/-- Claim C10: when a head attempt carries status 405 and the escalated get
request then raises, the recorded attempt result for the candidate is a
failure carrying the exception kind of the get attempt and no status code; the
observed 405 is discarded; a running outcome with no status code is
replaced by any later status-bearing candidate attempt. -/
theorem escalated_get_failure (client : Client)
    (scheme subdomain domain reason u e : String)
    (cand : String × String) (acc : DomainResponse × List (String × String))
    (hhead : client (scheme ++ subdomain ++ domain) "head" = ReqResult.success 405 reason u)
    (hget : client (scheme ++ subdomain ++ domain) "get" = ReqResult.failure e)
    (hacc : acc.1.status_code = none)
    (hcand : (tryCandidate client cand.1 cand.2 domain).1.status_code ≠ none) :
    (tryCandidate client scheme subdomain domain).1.exception_name = some e
    ∧ (tryCandidate client scheme subdomain domain).1.status_code = none
    ∧ (probeStep client domain acc cand).1
      = (tryCandidate client cand.1 cand.2 domain).1 := by
  refine ⟨?_, ?_, probeStep_replaces_failure hacc hcand⟩ <;>
    simp [tryCandidate, make_request, hhead, hget]

lemma increment_fields (c : Counters) (s : Option Nat) :
    (c.increment s).total_domains = c.total_domains + 1
    ∧ (c.increment s).total_200_status
        = c.total_200_status + (if s = some 200 then 1 else 0)
    ∧ (c.increment s).total_other_status
        = c.total_other_status + (if s = some 200 then 0 else if s ≠ none then 1 else 0)
    ∧ (c.increment s).total_exceptions
        = c.total_exceptions + (if s = some 200 then 0 else if s ≠ none then 0 else 1) := by
  rcases s with _ | n
  · simp [Counters.increment]
  · by_cases h : n = 200
    · subst h; simp [Counters.increment]
    · have h2 : (some n : Option Nat) ≠ some 200 := by simp [h]
      simp [Counters.increment, h2]

lemma process_fold (client : Client) (domains : List String) :
    ∀ init : Counters,
      (domains.foldl
          (fun c d => c.increment (get_domain_response client d).1.status_code) init).total_domains
        = init.total_domains + domains.length
      ∧ (domains.foldl
          (fun c d => c.increment (get_domain_response client d).1.status_code) init).total_200_status
        + (domains.foldl
          (fun c d => c.increment (get_domain_response client d).1.status_code) init).total_other_status
        + (domains.foldl
          (fun c d => c.increment (get_domain_response client d).1.status_code) init).total_exceptions
        = init.total_200_status + init.total_other_status + init.total_exceptions
          + domains.length := by
  induction domains with
  | nil => intro init; exact ⟨rfl, rfl⟩
  | cons d ds ih =>
    intro init
    simp only [List.foldl_cons, List.length_cons]
    obtain ⟨h1, h2⟩ := ih (init.increment (get_domain_response client d).1.status_code)
    obtain ⟨g1, g2, g3, g4⟩ :=
      increment_fields init (get_domain_response client d).1.status_code
    constructor
    · rw [h1, g1]; omega
    · rw [h2, g2, g3, g4]
      split
      · omega
      · split <;> omega

lemma pref_fold (client : Client) (domain : String) (l : List (String × String)) :
    ∀ init : DomainResponse × List (String × String),
      init.1.status_code ≠ some 200 →
      (∀ c ∈ l, (tryCandidate client c.1 c.2 domain).1.status_code ≠ some 200) →
      ((l.foldl (probeStep client domain) init).1.status_code ≠ some 200
        ∧ ((init.1.status_code ≠ none
              ∨ ∃ c ∈ l, (tryCandidate client c.1 c.2 domain).1.status_code ≠ none)
            → (l.foldl (probeStep client domain) init).1.status_code ≠ none)) := by
  induction l with
  | nil =>
    intro init hinit _
    refine ⟨hinit, ?_⟩
    rintro (h | ⟨c, hc, _⟩)
    · exact h
    · simp at hc
  | cons c cs ih =>
    intro init hinit hl
    have hc200 : (tryCandidate client c.1 c.2 domain).1.status_code ≠ some 200 :=
      hl c (List.mem_cons_self c cs)
    have hcs : ∀ c2 ∈ cs, (tryCandidate client c2.1 c2.2 domain).1.status_code ≠ some 200 :=
      fun c2 h2 => hl c2 (List.mem_cons_of_mem c h2)
    have hg : init.1.exception_name ≠ none ∨ init.1.status_code ≠ some 200 := Or.inr hinit
    have hm200 : (mergeStep init.1 (tryCandidate client c.1 c.2 domain).1).status_code
        ≠ some 200 := by
      rcases mergeStep_cases init.1 (tryCandidate client c.1 c.2 domain).1 with hr | hr <;>
        rw [hr]
      · exact hinit
      · exact hc200
    simp only [List.foldl_cons, probeStep_active hg]
    obtain ⟨t1, t2⟩ := ih (mergeStep init.1 (tryCandidate client c.1 c.2 domain).1,
        init.2 ++ (tryCandidate client c.1 c.2 domain).2) hm200 hcs
    refine ⟨t1, ?_⟩
    rintro (hne | ⟨c2, hc2, hne2⟩)
    · apply t2
      left
      rw [mergeStep_keeps hc200 hne]
      exact hne
    · rcases List.mem_cons.mp hc2 with rfl | hmem
      · apply t2
        left
        by_cases hin : init.1.status_code = none
        · rw [mergeStep_takes hin hne2]; exact hne2
        · rw [mergeStep_keeps hc200 hin]; exact hin
      · exact t2 (Or.inr ⟨c2, hmem, hne2⟩)

/-- Claim C2: preference law. A running outcome holding a failure (no status
code) is replaced by any later candidate attempt that carries a status
code, even a non-200 one; consequently, when no candidate attempt ever
carries status 200 but some non-first candidate attempt carries a status
code, the final outcome carries a status code. -/
theorem preference_law (client : Client) (domain : String)
    (acc : DomainResponse × List (String × String)) (cand : String × String)
    (hacc : acc.1.status_code = none)
    (hcand : (tryCandidate client cand.1 cand.2 domain).1.status_code ≠ none)
    (hno200 : ∀ c ∈ cc_candidates,
      (tryCandidate client c.1 c.2 domain).1.status_code ≠ some 200)
    (hsome : ∃ c ∈ cc_rest, (tryCandidate client c.1 c.2 domain).1.status_code ≠ none) :
    (probeStep client domain acc cand).1 = (tryCandidate client cand.1 cand.2 domain).1
    ∧ (get_domain_response client domain).1.status_code ≠ none := by
  refine ⟨probeStep_replaces_failure hacc hcand, ?_⟩
  have hinit200 : (tryCandidate client "https://" "" domain).1.status_code ≠ some 200 :=
    hno200 ("https://", "") (List.mem_cons_self _ _)
  obtain ⟨_, t2⟩ := pref_fold client domain cc_rest
    (tryCandidate client "https://" "" domain) hinit200
    (fun c h => hno200 c (List.mem_cons_of_mem _ h))
  exact t2 (Or.inr hsome)

lemma tryCandidate_nostatus_of_no405 (client : Client) (s sub domain : String)
    (h : (make_request client s sub domain "head").status_code ≠ some 405) :
    tryCandidate client s sub domain
      = (make_request client s sub domain "head", [(s ++ sub ++ domain, "head")]) := by
  simp [tryCandidate, h]

lemma tryCandidate_nostatus {client : Client} {s sub domain : String}
    (h : (make_request client s sub domain "head").status_code = none) :
    tryCandidate client s sub domain
      = (make_request client s sub domain "head", [(s ++ sub ++ domain, "head")]) :=
  tryCandidate_nostatus_of_no405 client s sub domain (by rw [h]; simp)

lemma foldl_probeStep_const (client : Client) (domain : String)
    (l : List (String × String)) :
    ∀ init : DomainResponse × List (String × String),
      init.1.status_code = none →
      (∀ c ∈ l, (tryCandidate client c.1 c.2 domain).1.status_code = none) →
      (l.foldl (probeStep client domain) init).1 = init.1 := by
  induction l with
  | nil => intro init _ _; rfl
  | cons c cs ih =>
    intro init hinit hl
    have hg : init.1.exception_name ≠ none ∨ init.1.status_code ≠ some 200 :=
      Or.inr (by simp [hinit])
    simp only [List.foldl_cons, probeStep_active hg]
    rw [show mergeStep init.1 (tryCandidate client c.1 c.2 domain).1 = init.1 from
      mergeStep_keeps_of_nostatus (hl c (List.mem_cons_self c cs))]
    exact ih _ hinit (fun c2 h2 => hl c2 (List.mem_cons_of_mem c h2))

/-- Claim C5: all-failure scenario. When every request the client could receive
raises, the final outcome is exactly the head attempt of the first candidate:
it carries no status code and the exception kind of the first candidate; no
later failure attempt overwrites it. -/
theorem all_failure_first_retained (client : Client) (domain : String)
    (hfail : ∀ u t : String, ∃ e : String, client u t = ReqResult.failure e) :
    (get_domain_response client domain).1 = make_request client "https://" "" domain "head"
    ∧ (get_domain_response client domain).1.status_code = none
    ∧ (get_domain_response client domain).1.exception_name ≠ none := by
  have hstat : ∀ s sub t : String, (make_request client s sub domain t).status_code = none := by
    intro s sub t
    obtain ⟨e, he⟩ := hfail (s ++ sub ++ domain) t
    rw [make_request_status, he]
    rfl
  have htc : ∀ s sub : String, tryCandidate client s sub domain
      = (make_request client s sub domain "head", [(s ++ sub ++ domain, "head")]) :=
    fun s sub => tryCandidate_nostatus (hstat s sub "head")
  have hinit : (tryCandidate client "https://" "" domain).1.status_code = none := by
    rw [htc "https://" ""]; exact hstat "https://" "" "head"
  have hall : ∀ c ∈ cc_rest, (tryCandidate client c.1 c.2 domain).1.status_code = none :=
    fun c _ => by rw [htc c.1 c.2]; exact hstat c.1 c.2 "head"
  have hmain : (get_domain_response client domain).1
      = make_request client "https://" "" domain "head" := by
    unfold get_domain_response
    rw [foldl_probeStep_const client domain cc_rest _ hinit hall, htc "https://" ""]
  refine ⟨hmain, ?_, ?_⟩
  · rw [hmain]; exact hstat "https://" "" "head"
  · rw [hmain]
    obtain ⟨e, he⟩ := hfail ("https://" ++ domain) "head"
    simp [make_request, he]

/-- Claim C6: counters sum law. After processing any batch, the 200 count plus
the other-status count plus the exception count equals the total count,
the total equals the number of input names, and each increment adds one to
the total and one to exactly one of the three outcome buckets, selected by
the final status code. -/
theorem counters_sum_law (client : Client) (domains : List String) :
    ((process_data client domains).total_200_status
        + (process_data client domains).total_other_status
        + (process_data client domains).total_exceptions
      = (process_data client domains).total_domains)
    ∧ (process_data client domains).total_domains = domains.length
    ∧ ∀ c : Counters, ∀ s : Option Nat,
        (c.increment s).total_domains = c.total_domains + 1
        ∧ (c.increment s).total_200_status
            = c.total_200_status + (if s = some 200 then 1 else 0)
        ∧ (c.increment s).total_other_status
            = c.total_other_status + (if s = some 200 then 0 else if s ≠ none then 1 else 0)
        ∧ (c.increment s).total_exceptions
            = c.total_exceptions + (if s = some 200 then 0 else if s ≠ none then 0 else 1) := by
  obtain ⟨h1, h2⟩ := process_fold client domains ({} : Counters)
  simp only [process_data]
  refine ⟨?_, ?_, increment_fields⟩
  · rw [h2, h1]; simp
  · rw [h1]; simp

/-- Claim C1: short-circuit law. Once the running outcome records status 200
(after any prefix of the non-first candidates), processing the remaining
candidates changes nothing — neither the outcome nor the trace of issued
requests — so the probe result is the run over the processed candidates, and
the request URL and request kind of the final outcome identify a request in the trace on
which the client returned status 200. -/
theorem short_circuit_law (client : Client) (domain : String)
    (l1 l2 : List (String × String))
    (hsplit : cc_rest = l1 ++ l2)
    (h200 : (l1.foldl (probeStep client domain)
        (tryCandidate client "https://" "" domain)).1.status_code = some 200) :
    get_domain_response client domain
      = l1.foldl (probeStep client domain) (tryCandidate client "https://" "" domain)
    ∧ result_status (client (get_domain_response client domain).1.request_url
        (get_domain_response client domain).1.request_type) = some 200
    ∧ ((get_domain_response client domain).1.request_url,
        (get_domain_response client domain).1.request_type)
      ∈ (get_domain_response client domain).2 := by
  have hwf : wellFormed (l1.foldl (probeStep client domain)
      (tryCandidate client "https://" "" domain)).1 :=
    foldl_probeStep_wf client domain l1 _ (tryCandidate_wf client "https://" "" domain)
  have hexc : (l1.foldl (probeStep client domain)
      (tryCandidate client "https://" "" domain)).1.exception_name = none := by
    unfold wellFormed at hwf
    rcases hwf with ⟨_, h2, _, _⟩ | ⟨h1, _, _, _⟩
    · rw [h200] at h2
      exact absurd h2 (by simp)
    · exact h1
  have hmain : get_domain_response client domain
      = l1.foldl (probeStep client domain) (tryCandidate client "https://" "" domain) := by
    unfold get_domain_response
    rw [hsplit, List.foldl_append]
    exact foldl_probeStep_stop client domain l2 _ hexc h200
  obtain ⟨s, sub, t, he, hmem⟩ := foldl_probeStep_fromTrace client domain l1 _
    (tryCandidate_fromTrace client "https://" "" domain)
  refine ⟨hmain, ?_, ?_⟩
  · rw [hmain, he, make_request_url, make_request_rtype, ← make_request_status, ← he]
    exact h200
  · rw [hmain, he, make_request_url, make_request_rtype]
    exact hmem

lemma foldl_trace_no200 (client : Client) (domain : String)
    (hclient : ∀ u t : String, result_status (client u t) ≠ some 200
      ∧ result_status (client u t) ≠ some 405)
    (l : List (String × String)) :
    ∀ init : DomainResponse × List (String × String),
      init.1.status_code ≠ some 200 →
      ((l.foldl (probeStep client domain) init).2
          = init.2 ++ l.map (fun c => (c.1 ++ c.2 ++ domain, "head"))
        ∧ (l.foldl (probeStep client domain) init).1.status_code ≠ some 200) := by
  induction l with
  | nil => intro init h; exact ⟨by simp, h⟩
  | cons c cs ih =>
    intro init h
    have h405 : ¬ (make_request client c.1 c.2 domain "head").status_code = some 405 := by
      rw [make_request_status]; exact (hclient _ _).2
    have htc : tryCandidate client c.1 c.2 domain
        = (make_request client c.1 c.2 domain "head", [(c.1 ++ c.2 ++ domain, "head")]) := by
      simp [tryCandidate, h405]
    have hg : init.1.exception_name ≠ none ∨ init.1.status_code ≠ some 200 := Or.inr h
    have hm200 : (mergeStep init.1 (tryCandidate client c.1 c.2 domain).1).status_code
        ≠ some 200 := by
      rcases mergeStep_cases init.1 (tryCandidate client c.1 c.2 domain).1 with hr | hr <;>
        rw [hr]
      · exact h
      · rw [htc]
        show (make_request client c.1 c.2 domain "head").status_code ≠ some 200
        rw [make_request_status]
        exact (hclient _ _).1
    simp only [List.foldl_cons, probeStep_active hg]
    obtain ⟨t1, t2⟩ := ih (mergeStep init.1 (tryCandidate client c.1 c.2 domain).1,
        init.2 ++ (tryCandidate client c.1 c.2 domain).2) hm200
    refine ⟨?_, t2⟩
    rw [t1, htc]
    simp

/-- Claim C7: candidate generation is deterministic and total. Both candidate
orders are fixed four-element lists covering every combination of scheme
and subdomain label, each request URL is the concatenation of scheme,
subdomain label and name, and on a client that never returns status 200 or
405 each probe issues exactly the four head requests in candidate order. -/
theorem candidate_generation (name : String) (client : Client)
    (hname : startswith name "www." = false)
    (hclient : ∀ u t : String, result_status (client u t) ≠ some 200
      ∧ result_status (client u t) ≠ some 405) :
    cc_candidates
      = [("https://", ""), ("https://", "www."), ("http://", ""), ("http://", "www.")]
    ∧ cd_candidates
      = [("http://", ""), ("http://", "www."), ("https://", ""), ("https://", "www.")]
    ∧ cc_candidates.length = 4
    ∧ cd_candidates.length = 4
    ∧ (get_domain_response client name).2
        = cc_candidates.map (fun c => (c.1 ++ c.2 ++ name, "head"))
    ∧ (cd_get_domain_response client name).2
        = cd_candidates.map (fun c => (c.1 ++ c.2 ++ name, "head")) := by
  have hinit200 : (tryCandidate client "https://" "" name).1.status_code ≠ some 200 := by
    rw [tryCandidate_nostatus_of_no405 client "https://" "" name
      (by rw [make_request_status]; exact (hclient _ _).2)]
    show (make_request client "https://" "" name "head").status_code ≠ some 200
    rw [make_request_status]; exact (hclient _ _).1
  have hinit200b : (tryCandidate client "http://" "" name).1.status_code ≠ some 200 := by
    rw [tryCandidate_nostatus_of_no405 client "http://" "" name
      (by rw [make_request_status]; exact (hclient _ _).2)]
    show (make_request client "http://" "" name "head").status_code ≠ some 200
    rw [make_request_status]; exact (hclient _ _).1
  obtain ⟨ta, _⟩ := foldl_trace_no200 client name hclient cc_rest
    (tryCandidate client "https://" "" name) hinit200
  obtain ⟨tb, _⟩ := foldl_trace_no200 client name hclient cd_rest
    (tryCandidate client "http://" "" name) hinit200b
  refine ⟨rfl, rfl, rfl, rfl, ?_, ?_⟩
  · unfold get_domain_response
    rw [ta, tryCandidate_nostatus_of_no405 client "https://" "" name
      (by rw [make_request_status]; exact (hclient _ _).2)]
    simp [cc_candidates, cc_rest]
  · unfold cd_get_domain_response
    rw [tb, tryCandidate_nostatus_of_no405 client "http://" "" name
      (by rw [make_request_status]; exact (hclient _ _).2)]
    simp [cd_candidates, cd_rest]

lemma hostProbeStep_www (client : Client) (hostname : String)
    (acc : DomainResponse × List (String × String)) (cand : String × String)
    (h1 : cand.2 = "www.") (h2 : startswith hostname "www." = true) :
    hostProbeStep client hostname acc cand = acc := by
  unfold hostProbeStep
  by_cases hg : acc.1.exception_name ≠ none ∨ acc.1.status_code ≠ some 200
  · rw [if_pos hg, if_pos ⟨h1, h2⟩]
  · rw [if_neg hg]

lemma tryCandidate_trace_sub (client : Client) (s sub d : String) :
    (tryCandidate client s sub d).2
      ⊆ [(s ++ sub ++ d, "head"), (s ++ sub ++ d, "get")] := by
  by_cases h : (make_request client s sub d "head").status_code = some 405 <;>
    simp [tryCandidate, h, List.cons_subset, List.nil_subset]

lemma hostProbeStep_trace (client : Client) (hostname : String)
    (acc : DomainResponse × List (String × String)) (cand : String × String) :
    (hostProbeStep client hostname acc cand).2
      ⊆ acc.2 ++ (tryCandidate client cand.1 cand.2 hostname).2 := by
  unfold hostProbeStep
  by_cases hg : acc.1.exception_name ≠ none ∨ acc.1.status_code ≠ some 200
  · rw [if_pos hg]
    by_cases hs : cand.2 = "www." ∧ startswith hostname "www." = true
    · rw [if_pos hs]
      exact List.subset_append_left _ _
    · rw [if_neg hs]
      exact List.Subset.refl _
  · rw [if_neg hg]
    exact List.subset_append_left _ _

/-- Claim C4 counterexample: against the domain probe of check_cc_domains.py, the
name "www.example.com" (which starts with "www.") still generates a www
candidate, so a request is issued to the doubled-prefix URL
"https://www.www.example.com", and all four candidates are tried (the
sequence is not reduced to 2 entries). -/
theorem www_doubling_cex :
    startswith "www.example.com" "www." = true
    ∧ ("https://www.www.example.com", "head")
      ∈ (get_domain_response allFailClient "www.example.com").2
    ∧ (get_domain_response allFailClient "www.example.com").2.length = 4 := by
  refine ⟨by decide, by decide, by decide⟩

/-- Claim C4 amended: the www idempotence special case is implemented by the
hostname probe of check_cc_hostnames.py, not the domain probes. For an
input name starting with "www.", every request the hostname probe issues
targets the bare name under one of the two schemes — at most two
candidates, and no "www." is ever prepended, so no doubled "www.www."
prefix is introduced. -/
theorem www_idempotence_hostnames (client : Client) (hostname : String)
    (hwww : startswith hostname "www." = true) :
    (get_host_response client hostname).2
      ⊆ [("https://" ++ hostname, "head"), ("https://" ++ hostname, "get"),
         ("http://" ++ hostname, "head"), ("http://" ++ hostname, "get")] := by
  unfold get_host_response hn_rest
  simp only [List.foldl_cons, List.foldl_nil]
  rw [@hostProbeStep_www client hostname
    (tryCandidate client "https://" "" hostname) ("https://", "www.") rfl hwww]
  rw [@hostProbeStep_www client hostname
    (hostProbeStep client hostname (tryCandidate client "https://" "" hostname) ("http://", ""))
    ("http://", "www.") rfl hwww]
  refine List.Subset.trans
    (hostProbeStep_trace client hostname (tryCandidate client "https://" "" hostname)
      ("http://", "")) ?_
  rw [List.append_subset]
  constructor
  · refine List.Subset.trans (tryCandidate_trace_sub client "https://" "" hostname) ?_
    intro a ha
    simp at ha ⊢
    tauto
  · refine List.Subset.trans (tryCandidate_trace_sub client "http://" "" hostname) ?_
    intro a ha
    simp at ha ⊢
    tauto

/-- A client on which only the https www candidate succeeds, with a 200. -/
def scClient : Client := fun u _ =>
  if u = "https://www.example.com" then
    ReqResult.success 200 "OK" "https://www.example.com/"
  else ReqResult.failure "ConnectionError"

theorem short_circuit_law_witness :
    get_domain_response scClient "example.com"
      = List.foldl (probeStep scClient "example.com")
          (tryCandidate scClient "https://" "" "example.com") [("https://", "www.")]
    ∧ result_status (scClient (get_domain_response scClient "example.com").1.request_url
        (get_domain_response scClient "example.com").1.request_type) = some 200
    ∧ ((get_domain_response scClient "example.com").1.request_url,
        (get_domain_response scClient "example.com").1.request_type)
      ∈ (get_domain_response scClient "example.com").2 :=
  short_circuit_law scClient "example.com" [("https://", "www.")]
    [("http://", ""), ("http://", "www.")] (by decide) (by decide)

/-- A client on which only the https www candidate responds, with a 404. -/
def prefClient : Client := fun u _ =>
  if u = "https://www.example.com" then
    ReqResult.success 404 "Not Found" "https://www.example.com/"
  else ReqResult.failure "ConnectionError"

theorem preference_law_witness :
    (probeStep prefClient "example.com"
        (tryCandidate prefClient "https://" "" "example.com") ("https://", "www.")).1
      = (tryCandidate prefClient "https://" "www." "example.com").1
    ∧ (get_domain_response prefClient "example.com").1.status_code ≠ none :=
  preference_law prefClient "example.com"
    (tryCandidate prefClient "https://" "" "example.com") ("https://", "www.")
    (by decide) (by decide) (by decide) (by decide)

/-- A client answering 405 to every head request and 200 to every get. -/
def escClient : Client := fun _ t =>
  if t = "head" then ReqResult.success 405 "Method Not Allowed" "https://example.com/"
  else ReqResult.success 200 "OK" "https://example.com/"

theorem escalation_law_witness :
    (tryCandidate escClient "https://" "" "example.com").1
      = make_request escClient "https://" "" "example.com" "get"
    ∧ (tryCandidate escClient "https://" "" "example.com").2
      = [("https://" ++ "" ++ "example.com", "head"), ("https://" ++ "" ++ "example.com", "get")] :=
  escalation_law escClient "https://" "" "example.com" (by decide)

theorem www_idempotence_hostnames_witness :
    (get_host_response allFailClient "www.example.com").2
      ⊆ [("https://" ++ "www.example.com", "head"), ("https://" ++ "www.example.com", "get"),
         ("http://" ++ "www.example.com", "head"), ("http://" ++ "www.example.com", "get")] :=
  www_idempotence_hostnames allFailClient "www.example.com" (by decide)

theorem all_failure_first_retained_witness :
    (get_domain_response allFailClient "example.com").1
      = make_request allFailClient "https://" "" "example.com" "head"
    ∧ (get_domain_response allFailClient "example.com").1.status_code = none
    ∧ (get_domain_response allFailClient "example.com").1.exception_name ≠ none :=
  all_failure_first_retained allFailClient "example.com"
    (fun _ _ => ⟨"ConnectionError", rfl⟩)

theorem candidate_generation_witness :
    cc_candidates
      = [("https://", ""), ("https://", "www."), ("http://", ""), ("http://", "www.")]
    ∧ cd_candidates
      = [("http://", ""), ("http://", "www."), ("https://", ""), ("https://", "www.")]
    ∧ cc_candidates.length = 4
    ∧ cd_candidates.length = 4
    ∧ (get_domain_response allFailClient "example.com").2
        = cc_candidates.map (fun c => (c.1 ++ c.2 ++ "example.com", "head"))
    ∧ (cd_get_domain_response allFailClient "example.com").2
        = cd_candidates.map (fun c => (c.1 ++ c.2 ++ "example.com", "head")) :=
  candidate_generation "example.com" allFailClient (by decide)
    (fun u t => ⟨by simp [allFailClient, result_status],
                 by simp [allFailClient, result_status]⟩)

theorem probe_never_raises_witness :
    make_request allFailClient "https://" "www." "example.com" "head"
      = { domain := "example.com", request_url := "https://" ++ "www." ++ "example.com"
          request_type := "head", exception_name := some "ConnectionError"
          status_code := none, status_reason := none, response_url := none }
    ∧ (probeStep allFailClient "example.com"
        (tryCandidate allFailClient "https://" "" "example.com") ("https://", "www.")).2
      = (tryCandidate allFailClient "https://" "" "example.com").2
        ++ (tryCandidate allFailClient "https://" "www." "example.com").2
    ∧ (tryCandidate allFailClient "https://" "www." "example.com").2 ≠ [] :=
  probe_never_raises allFailClient "https://" "www." "example.com" "head" "ConnectionError"
    ("https://", "www.") (tryCandidate allFailClient "https://" "" "example.com")
    rfl (by decide)

/-- A concrete well-formed failure attempt result. -/
def wfFailResp : DomainResponse :=
  { domain := "example.com", request_url := "https://example.com", request_type := "head"
    exception_name := some "ConnectionError", status_code := none
    status_reason := none, response_url := none }

/-- A concrete well-formed response attempt result. -/
def wfOkResp : DomainResponse :=
  { domain := "example.com", request_url := "https://example.com", request_type := "head"
    exception_name := none, status_code := some 200
    status_reason := some "OK", response_url := some "https://example.com/" }

theorem attempt_exclusivity_witness :
    wellFormed (make_request allFailClient "https://" "" "example.com" "head")
    ∧ wellFormed (DomainResponse.update_from wfFailResp wfOkResp)
    ∧ wellFormed (mergeStep wfFailResp wfOkResp)
    ∧ wellFormed (get_domain_response allFailClient "example.com").1 :=
  attempt_exclusivity allFailClient "https://" "" "example.com" "head"
    wfFailResp wfOkResp wfOkResp (by decide) (by decide) (by decide)

/-- A client where the bare https candidate returns 405 on head and then
raises on the escalated get, while the https www candidate responds 404. -/
def escFailClient : Client := fun u t =>
  if u = "https://example.com" then
    (if t = "head" then ReqResult.success 405 "Method Not Allowed" "https://example.com/"
     else ReqResult.failure "ReadTimeout")
  else if u = "https://www.example.com" then
    ReqResult.success 404 "Not Found" "https://www.example.com/"
  else ReqResult.failure "ConnectionError"

theorem escalated_get_failure_witness :
    (tryCandidate escFailClient "https://" "" "example.com").1.exception_name
      = some "ReadTimeout"
    ∧ (tryCandidate escFailClient "https://" "" "example.com").1.status_code = none
    ∧ (probeStep escFailClient "example.com"
        (tryCandidate escFailClient "https://" "" "example.com") ("https://", "www.")).1
      = (tryCandidate escFailClient "https://" "www." "example.com").1 :=
  escalated_get_failure escFailClient "https://" "" "example.com"
    "Method Not Allowed" "https://example.com/" "ReadTimeout"
    ("https://", "www.") (tryCandidate escFailClient "https://" "" "example.com")
    (by decide) (by decide) (by decide) (by decide)
